import Mathlib

/-!
Verification of the Idle_Stuff core (`idle_stuff_core.py`, `ncurses_display.py`)
against its natural-language specification.

Python floats are modelled as exact rationals (ℚ), Python's insertion-ordered
dicts as association lists in insertion order (updating an existing key keeps
its position, a new key is appended, matching CPython semantics).  The process
global random stream consumed by `random.random()` is modelled as an explicit
draw stream `ℕ → ℚ` threaded through `tick` with a running draw index.
-/

namespace IdleStuff

/-- Lookup in an insertion-ordered dict (first matching key wins). -/
def dget {α : Type} (d : List (String × α)) (k : String) : Option α :=
  match d with
  | [] => none
  | (k₀, v) :: rest => if k₀ = k then some v else dget rest k

/-- Dict assignment `d[k] = v`: updates the first occurrence of `k` in place,
appends `(k, v)` when `k` is absent — CPython dict semantics. -/
def dset {α : Type} (d : List (String × α)) (k : String) (v : α) :
    List (String × α) :=
  match d with
  | [] => [(k, v)]
  | (k₀, v₀) :: rest => if k₀ = k then (k₀, v) :: rest else (k₀, v₀) :: dset rest k v

/-- `d.get(k, 0)` on an experience dict. -/
def expGet (d : List (String × ℚ)) (k : String) : ℚ :=
  (dget d k).getD 0

/-- `EntityTraits` dataclass. -/
structure EntityTraits where
  efficiency : ℚ
  learning_rate : ℚ
  cooperation : ℚ
  stamina : ℚ
deriving DecidableEq

/-- `Entity` dataclass.  `experience` is the task → accumulated value dict. -/
structure Entity where
  id : String
  name : String
  entity_type : String
  traits : EntityTraits
  experience : List (String × ℚ)
  current_task : Option String
deriving DecidableEq

/-- `Resource` dataclass. -/
structure Resource where
  name : String
  amount : ℚ
  production_rate : ℚ
deriving DecidableEq

/-- `GameState` dataclass.  The `resources` and `entities` dicts are
association lists in insertion order. -/
structure GameState where
  tick : ℕ
  resources : List (String × Resource)
  entities : List (String × Entity)
  technologies : List String
  prestige_tokens : ℕ
  player_boost : ℚ
deriving DecidableEq

/-- An event dict produced by `GameLogic.tick` (`type`, optional `entity`,
`message` keys). -/
structure Event where
  type : String
  entity : Option String
  message : String
deriving DecidableEq

/-- `GameLogic._process_entity_action`: processes one entity against the
current resource dict.  `rng` is the global random stream, `i` the index of
the next unconsumed draw; a draw is consumed exactly when the entity's
`current_task` is `"gathering"` (the only branch whose body runs). -/
def process_entity_action (resources : List (String × Resource)) (e : Entity)
    (rng : ℕ → ℚ) (i : ℕ) :
    List (String × Resource) × Entity × Option Event × ℕ :=
  if e.current_task = some "gathering" then
    let base_gathering : ℚ := 1
    let efficiency_mult : ℚ := e.traits.efficiency
    let experience_mult : ℚ := 1 + expGet e.experience "gathering" * (1 / 10)
    let gathered : ℚ := base_gathering * efficiency_mult * experience_mult
    let resources' :=
      match dget resources "energy" with
      | some r => dset resources "energy" { r with amount := r.amount + gathered }
      | none => resources
    let newExp :=
      dset e.experience "gathering"
        (expGet e.experience "gathering" + e.traits.learning_rate)
    let e' : Entity := { e with experience := newExp }
    if rng i < 1 / 20 then
      (resources', e',
        some ⟨"discovery", some e.name, e.name ++ " found an efficient energy source!"⟩,
        i + 1)
    else
      (resources', e', none, i + 1)
  else
    (resources, e, none, i)

/-- The entity-processing loop of `GameLogic.tick`: iterates over the entity
dict in insertion order, threading the resource dict, collecting events in
order, and threading the draw index. -/
def process_entities (resources : List (String × Resource))
    (es : List (String × Entity)) (rng : ℕ → ℚ) (i : ℕ) :
    List (String × Resource) × List (String × Entity) × List Event × ℕ :=
  match es with
  | [] => (resources, [], [], i)
  | (k, e) :: rest =>
    let step := process_entity_action resources e rng i
    let tail := process_entities step.1 rest rng step.2.2.2
    (tail.1, (k, step.2.1) :: tail.2.1,
      (match step.2.2.1 with
       | some ev => ev :: tail.2.2.1
       | none => tail.2.2.1),
      tail.2.2.2)

/-- The per-energy rate computed by `GameLogic._update_production_rates`:
sum over entities with `entity_type == "gatherer"` and
`current_task == "gathering"` of `efficiency * (1 + experience * 0.1)`. -/
def energy_rate_of (entities : List (String × Entity)) : ℚ :=
  ((entities.filter (fun p =>
      p.2.entity_type == "gatherer" && p.2.current_task == some "gathering")).map
    (fun p => p.2.traits.efficiency * (1 + expGet p.2.experience "gathering" * (1 / 10)))).sum

/-- `GameLogic._update_production_rates`: overwrites `energy`'s
`production_rate` with `energy_rate_of` when `"energy"` is a resource;
touches nothing else. -/
def update_production_rates (s : GameState) : GameState :=
  let rate := energy_rate_of s.entities
  match dget s.resources "energy" with
  | some r =>
    { s with resources := dset s.resources "energy" { r with production_rate := rate } }
  | none => s

/-- Result of one `GameLogic.tick` call.  `saved` records whether the tick
body itself invoked `self.save_game()` (the persistence side effect). -/
structure TickResult where
  state : GameState
  events : List Event
  saved : Bool
deriving DecidableEq

/-- The rate-application loop of `GameLogic.tick`: every resource whose
`production_rate` is positive gains that rate. -/
def apply_production (resources : List (String × Resource)) :
    List (String × Resource) :=
  resources.map (fun p =>
    (p.1, if p.2.production_rate > 0 then
      { p.2 with amount := p.2.amount + p.2.production_rate } else p.2))

/-- `GameLogic.tick`: increment the tick counter, process every entity,
recompute production rates, apply positive rates to amounts, and on the
auto-save cadence call `save_game` and append the system event. -/
def tick (s : GameState) (auto_save_interval : ℕ) (rng : ℕ → ℚ) : TickResult :=
  let s₁ : GameState := { s with tick := s.tick + 1 }
  let proc := process_entities s₁.resources s₁.entities rng 0
  let s₂ : GameState := { s₁ with resources := proc.1, entities := proc.2.1 }
  let s₃ : GameState := update_production_rates s₂
  let s₄ : GameState := { s₃ with resources := apply_production s₃.resources }
  if s₄.tick % auto_save_interval = 0 then
    { state := s₄,
      events := proc.2.2.1 ++ [⟨"system", none, "Game auto-saved"⟩],
      saved := true }
  else
    { state := s₄, events := proc.2.2.1, saved := false }

/-- Result of `GameLogic.apply_player_boost`: the success string
`"Boosted {name} for +{amount} energy!"` is modelled as `success name amount`,
the `"Boost failed!"` string as `failure`. -/
inductive BoostResult where
  | success (name : String) (amount : ℚ)
  | failure
deriving DecidableEq

/-- `GameLogic.apply_player_boost`: on a known entity whose `current_task` is
`"gathering"`, add `boost_multiplier * efficiency` to `energy` (when that
resource exists) and report success; otherwise report failure and change
nothing. -/
def apply_player_boost (s : GameState) (entity_id : String)
    (boost_multiplier : ℚ) : GameState × BoostResult :=
  match dget s.entities entity_id with
  | some e =>
    if e.current_task = some "gathering" then
      let boosted_amount := boost_multiplier * e.traits.efficiency
      let s' :=
        match dget s.resources "energy" with
        | some r =>
          let res' := dset s.resources "energy" { r with amount := r.amount + boosted_amount }
          { s with resources := res' }
        | none => s
      (s', .success e.name boosted_amount)
    else
      (s, .failure)
  | none => (s, .failure)

/-! ### Persistence layer (`GameDatabase`) -/

/-- A row of the `resources` table. -/
structure ResourceRow where
  game_id : ℕ
  name : String
  amount : ℚ
  production_rate : ℚ
deriving DecidableEq

/-- A row of the `entities` table. -/
structure EntityRow where
  game_id : ℕ
  entity_id : String
  name : String
  entity_type : String
  current_task : Option String
  efficiency : ℚ
  learning_rate : ℚ
  cooperation : ℚ
  stamina : ℚ
deriving DecidableEq

/-- A row of the `entity_experience` table. -/
structure ExperienceRow where
  game_id : ℕ
  entity_id : String
  task_type : String
  experience : ℚ
deriving DecidableEq

/-- A row of the `technologies` table. -/
structure TechRow where
  game_id : ℕ
  tech_name : String
  unlocked_at : ℕ
deriving DecidableEq

/-- The SQLite database contents relevant to save/load.  A `game_state` row is
`(id, tick, prestige_tokens, player_boost)`; rows are kept in insertion
order, which is the order a full-table scan returns them in. -/
structure Database where
  game_state_rows : List (ℕ × ℕ × ℕ × ℚ)
  resource_rows : List ResourceRow
  entity_rows : List EntityRow
  experience_rows : List ExperienceRow
  technology_rows : List TechRow
deriving DecidableEq

/-- `DELETE FROM <table> WHERE <p>`:  keeps the rows not satisfying `p`. -/
def purge {α : Type} (p : α → Bool) (l : List α) : List α :=
  l.filter (fun a => !(p a))

/-- `GameDatabase.save_game_state`: `INSERT OR REPLACE` of the single
`game_state` row with id 1, `DELETE ... WHERE game_id = 1` on every other
table, then re-insertion of all resources, entities, per-entity experience
and technologies under game_id 1. -/
def save_game_state (db : Database) (s : GameState) : Database :=
  { game_state_rows :=
      purge (fun g => g.1 == 1) db.game_state_rows ++
        [(1, s.tick, s.prestige_tokens, s.player_boost)],
    resource_rows :=
      purge (fun r => r.game_id == 1) db.resource_rows ++
        s.resources.map (fun p => ⟨1, p.2.name, p.2.amount, p.2.production_rate⟩),
    entity_rows :=
      purge (fun r => r.game_id == 1) db.entity_rows ++
        s.entities.map (fun p =>
          ⟨1, p.2.id, p.2.name, p.2.entity_type, p.2.current_task,
            p.2.traits.efficiency, p.2.traits.learning_rate,
            p.2.traits.cooperation, p.2.traits.stamina⟩),
    experience_rows :=
      purge (fun r => r.game_id == 1) db.experience_rows ++
        s.entities.flatMap (fun p =>
          p.2.experience.map (fun q => ⟨1, p.2.id, q.1, q.2⟩)),
    technology_rows :=
      purge (fun r => r.game_id == 1) db.technology_rows ++
        s.technologies.map (fun t => ⟨1, t, s.tick⟩) }

/-- The experience dict rebuilt by `load_game_state` for one entity: the
filtered `entity_experience` rows assigned into a fresh dict in row order. -/
def load_experience (db : Database) (game_id : ℕ) (entity_id : String) :
    List (String × ℚ) :=
  ((db.experience_rows.filter
      (fun er => er.game_id == game_id && er.entity_id == entity_id)).map
    (fun er => (er.task_type, er.experience))).foldl
    (fun acc q => dset acc q.1 q.2) []

/-- `GameDatabase.load_game_state`: fetch the `game_state` row, then rebuild
the resource dict, the entity dict (with each entity's experience dict) and
the technology list from the rows with the requested `game_id`, assigning
dict entries in row order. -/
def load_game_state (db : Database) (game_id : ℕ) : Option GameState :=
  match db.game_state_rows.find? (fun g => g.1 == game_id) with
  | none => none
  | some g =>
    let resources :=
      ((db.resource_rows.filter (fun r => r.game_id == game_id)).map
        (fun r => (r.name, Resource.mk r.name r.amount r.production_rate))).foldl
        (fun acc p => dset acc p.1 p.2) []
    let entities :=
      ((db.entity_rows.filter (fun r => r.game_id == game_id)).map
        (fun row => (row.entity_id,
          Entity.mk row.entity_id row.name row.entity_type
            ⟨row.efficiency, row.learning_rate, row.cooperation, row.stamina⟩
            (load_experience db game_id row.entity_id)
            row.current_task))).foldl
        (fun acc p => dset acc p.1 p.2) []
    let technologies :=
      (db.technology_rows.filter (fun r => r.game_id == game_id)).map
        (fun r => r.tech_name)
    some ⟨g.2.1, resources, entities, technologies, g.2.2.1, g.2.2.2⟩

/-- Key discipline holding of every reachable `GameState`: dict keys equal
the stored `name`/`id`, keys are duplicate-free (Python dicts cannot hold
duplicates), and the technology list is duplicate-free (the SQL primary key
on `(game_id, tech_name)` rejects duplicates). -/
def wellFormed (s : GameState) : Prop :=
  (∀ p ∈ s.resources, p.2.name = p.1) ∧
  (s.resources.map Prod.fst).Nodup ∧
  (∀ p ∈ s.entities, p.2.id = p.1) ∧
  (s.entities.map Prod.fst).Nodup ∧
  (∀ p ∈ s.entities, (p.2.experience.map Prod.fst).Nodup) ∧
  s.technologies.Nodup

instance (s : GameState) : Decidable (wellFormed s) := by
  unfold wellFormed; infer_instance

/-! ### Input channel (`ncurses_display.py`) -/

/-- `curses.KEY_UP`. -/
def KEY_UP : ℤ := 259

/-- `curses.KEY_DOWN`. -/
def KEY_DOWN : ℤ := 258

/-- One iteration of `NCursesDisplay._input_handler`: a key read from the
terminal is appended to the (unbounded FIFO) `queue.Queue` unless `getch`
returned `-1`. -/
def input_handler_step (q : List ℤ) (key : ℤ) : List ℤ :=
  if key = -1 then q else q ++ [key]

/-- The display-side state touched by `get_input`: the input queue, the
highlighted selection index (a Python `int`, so ℤ) and the selectable items
as `(type, entity_id, description)` triples. -/
structure DisplayState where
  input_queue : List ℤ
  current_selection : ℤ
  selectable_items : List (String × String × String)
deriving DecidableEq

/-- `NCursesDisplay.get_input`: `get_nowait` one key from the queue (`none`
and no state change when empty), translate it to a command string, updating
the selection index for navigation keys; unrecognized keys are consumed and
yield `none`. -/
def get_input (d : DisplayState) : Option String × DisplayState :=
  match d.input_queue with
  | [] => (none, d)
  | key :: rest =>
    if key = KEY_UP then
      (some "nav_up",
        { d with input_queue := rest,
                 current_selection := max 0 (d.current_selection - 1) })
    else if key = KEY_DOWN then
      (some "nav_down",
        { d with input_queue := rest,
                 current_selection :=
                   min ((d.selectable_items.length : ℤ) - 1) (d.current_selection + 1) })
    else if key = 32 then
      if 0 ≤ d.current_selection ∧ d.current_selection < (d.selectable_items.length : ℤ) then
        match d.selectable_items.get? d.current_selection.toNat with
        | some item => (some ("boost:" ++ item.2.1), { d with input_queue := rest })
        | none => (some "boost", { d with input_queue := rest })
      else
        (some "boost", { d with input_queue := rest })
    else if key = 115 ∨ key = 83 then
      (some "save", { d with input_queue := rest })
    else if key = 113 ∨ key = 81 then
      (some "quit", { d with input_queue := rest })
    else if key = 114 ∨ key = 82 then
      (some "reset", { d with input_queue := rest, current_selection := 0 })
    else if key = 43 ∨ key = 61 then
      (some "speed_up", { d with input_queue := rest })
    else if key = 45 then
      (some "speed_down", { d with input_queue := rest })
    else
      (none, { d with input_queue := rest })

/-! ### Concrete fixtures used by witnesses and counterexamples -/

/-- Traits of the spec scenario's gatherers: efficiency 1, learning rate 0.1. -/
def scenarioTraits : EntityTraits := ⟨1, 1 / 10, 1, 1⟩

/-- A scenario gatherer with the given id. -/
def scenarioGatherer (i : String) : Entity :=
  ⟨i, "Zara", "gatherer", scenarioTraits, [("gathering", 0)], some "gathering"⟩

/-- The spec scenario's starting state: `energy = 10.0` and three gatherers. -/
def scenarioState : GameState :=
  ⟨0, [("energy", ⟨"energy", 10, 0⟩)],
   [("e0", scenarioGatherer "e0"), ("e1", scenarioGatherer "e1"),
    ("e2", scenarioGatherer "e2")],
   [], 0, 1⟩

/-- A draw stream on which no 5% discovery roll succeeds. -/
def rngHigh : ℕ → ℚ := fun _ => 1

/-- A draw stream on which every 5% discovery roll succeeds. -/
def rngLow : ℕ → ℚ := fun _ => 0

/-- A state with one gathering entity but no `"energy"` resource. -/
def noEnergyState : GameState :=
  ⟨0, [], [("e0", scenarioGatherer "e0")], [], 0, 1⟩

/-- A state with one gathering entity and the `"energy"` resource present. -/
def boostState : GameState :=
  ⟨0, [("energy", ⟨"energy", 10, 0⟩)], [("e0", scenarioGatherer "e0")], [], 0, 1⟩

/-- A state whose only entity is a philosopher assigned to `"gathering"`
(learning rate 0 keeps its experience at 0 across a tick). -/
def philosopherState : GameState :=
  ⟨0, [("energy", ⟨"energy", 10, 0⟩)],
   [("p0", ⟨"p0", "Sage", "philosopher", ⟨1, 0, 1, 1⟩, [("gathering", 0)], some "gathering"⟩)],
   [], 0, 1⟩

/-- An empty database. -/
def emptyDb : Database := ⟨[], [], [], [], []⟩

/-- The rate the claim predicts for `"energy"`: the sum over all entities
whose `current_task` is `"gathering"` (the task feeding energy) of
`efficiency * (1 + experience * 0.1)`, regardless of `entity_type`.
Modelled from the spec's words for comparison with `energy_rate_of`. -/
def claimed_energy_rate (entities : List (String × Entity)) : ℚ :=
  ((entities.filter (fun p => p.2.current_task == some "gathering")).map
    (fun p => p.2.traits.efficiency * (1 + expGet p.2.experience "gathering" * (1 / 10)))).sum

/-! ### Dictionary lemmas -/

theorem dget_dset_self {α : Type} (d : List (String × α)) (k : String) (v : α) :
    dget (dset d k v) k = some v := by
  induction d with
  | nil => simp [dget, dset]
  | cons p rest ih =>
    obtain ⟨k₀, v₀⟩ := p
    by_cases h : k₀ = k
    · simp [dset, h, dget]
    · simp [dset, h, dget, ih]

theorem dget_dset_ne {α : Type} (d : List (String × α)) (k k' : String) (v : α)
    (h : k' ≠ k) : dget (dset d k v) k' = dget d k' := by
  have hne : k ≠ k' := fun hh => h hh.symm
  induction d with
  | nil => simp [dget, dset, hne]
  | cons p rest ih =>
    obtain ⟨k₀, v₀⟩ := p
    by_cases hk : k₀ = k
    · subst hk
      simp [dset, dget, hne]
    · simp only [dset, if_neg hk, dget]
      by_cases hk' : k₀ = k'
      · simp [hk']
      · simp [hk', ih]

theorem dget_map {α β : Type} (f : α → β) (d : List (String × α)) (k : String) :
    dget (d.map (fun p => (p.1, f p.2))) k = (dget d k).map f := by
  induction d with
  | nil => simp [dget]
  | cons p rest ih =>
    obtain ⟨k₀, v₀⟩ := p
    by_cases h : k₀ = k <;> simp [dget, h, ih]

theorem expGet_dset_self (d : List (String × ℚ)) (k : String) (v : ℚ) :
    expGet (dset d k v) k = v := by
  simp [expGet, dget_dset_self]

theorem expGet_dset_ne (d : List (String × ℚ)) (k k' : String) (v : ℚ)
    (h : k' ≠ k) : expGet (dset d k v) k' = expGet d k' := by
  simp [expGet, dget_dset_ne d k k' v h]

theorem expGet_nonneg (d : List (String × ℚ)) (h : ∀ q ∈ d, 0 ≤ q.2) (k : String) :
    0 ≤ expGet d k := by
  induction d with
  | nil => simp [expGet, dget]
  | cons p rest ih =>
    obtain ⟨k₀, v₀⟩ := p
    by_cases hk : k₀ = k
    · simpa [expGet, dget, hk] using h (k₀, v₀) (by simp)
    · simpa [expGet, dget, hk] using ih (fun q hq => h q (by simp [hq]))

/-! ### Stage characterizations of `tick` -/

theorem update_production_rates_tick (s : GameState) :
    (update_production_rates s).tick = s.tick := by
  unfold update_production_rates
  cases dget s.resources "energy" <;> rfl

theorem update_production_rates_entities (s : GameState) :
    (update_production_rates s).entities = s.entities := by
  unfold update_production_rates
  cases dget s.resources "energy" <;> rfl

theorem update_production_rates_dget_energy (s : GameState) :
    dget (update_production_rates s).resources "energy" =
      (dget s.resources "energy").map
        (fun r => { r with production_rate := energy_rate_of s.entities }) := by
  unfold update_production_rates
  cases h : dget s.resources "energy" with
  | none => simp [h]
  | some r => simp [h, dget_dset_self]

theorem update_production_rates_dget_other (s : GameState) (k : String)
    (hk : k ≠ "energy") :
    dget (update_production_rates s).resources k = dget s.resources k := by
  unfold update_production_rates
  cases h : dget s.resources "energy" with
  | none => simp [h]
  | some r => simp [h, dget_dset_ne _ _ _ _ hk]

theorem apply_production_dget (resources : List (String × Resource)) (k : String) :
    dget (apply_production resources) k =
      (dget resources k).map (fun r =>
        if r.production_rate > 0 then
          { r with amount := r.amount + r.production_rate } else r) := by
  unfold apply_production
  exact dget_map
    (fun r => if r.production_rate > 0 then
      { r with amount := r.amount + r.production_rate } else r) resources k

theorem tick_state_tick (s : GameState) (interval : ℕ) (rng : ℕ → ℚ) :
    (tick s interval rng).state.tick = s.tick + 1 := by
  simp only [tick]
  split <;> simp [update_production_rates_tick]

theorem tick_state_entities (s : GameState) (interval : ℕ) (rng : ℕ → ℚ) :
    (tick s interval rng).state.entities =
      (process_entities s.resources s.entities rng 0).2.1 := by
  simp only [tick]
  split <;> simp [update_production_rates_entities]

theorem tick_state_resources (s : GameState) (interval : ℕ) (rng : ℕ → ℚ) :
    (tick s interval rng).state.resources =
      apply_production (update_production_rates { s with
        tick := s.tick + 1,
        resources := (process_entities s.resources s.entities rng 0).1,
        entities := (process_entities s.resources s.entities rng 0).2.1 }).resources := by
  simp only [tick]
  split <;> rfl

theorem tick_saved_iff (s : GameState) (interval : ℕ) (rng : ℕ → ℚ) :
    (tick s interval rng).saved = true ↔ (s.tick + 1) % interval = 0 := by
  simp only [tick, update_production_rates_tick]
  split
  · rename_i h
    simpa using h
  · rename_i h
    simpa using h

theorem tick_events_eq (s : GameState) (interval : ℕ) (rng : ℕ → ℚ) :
    (tick s interval rng).events =
      (process_entities s.resources s.entities rng 0).2.2.1 ++
        (if (s.tick + 1) % interval = 0 then
          [⟨"system", none, "Game auto-saved"⟩] else ([] : List Event)) := by
  simp only [tick, update_production_rates_tick]
  split
  · rfl
  · simp

/-! ### Entity-processing lemmas -/

theorem process_entity_action_res (res : List (String × Resource)) (e : Entity)
    (rng : ℕ → ℚ) (i : ℕ) (k : String) (r : Resource) (h : dget res k = some r) :
    ∃ r₂, dget (process_entity_action res e rng i).1 k = some r₂ ∧
      r₂.name = r.name ∧ r₂.production_rate = r.production_rate ∧
      (0 ≤ e.traits.efficiency → (∀ q ∈ e.experience, 0 ≤ q.2) →
        r.amount ≤ r₂.amount) := by
  unfold process_entity_action
  by_cases ht : e.current_task = some "gathering"
  · simp only [if_pos ht]
    by_cases hr : rng i < 1 / 20 <;>
      [simp only [if_pos hr]; simp only [if_neg hr]] <;>
    · cases he : dget res "energy" with
      | none => exact ⟨r, by simpa [he] using h, rfl, rfl, fun _ _ => le_refl _⟩
      | some r₀ =>
        by_cases hk : k = "energy"
        · subst hk
          have hrr : r₀ = r := by rw [he] at h; exact Option.some.inj h
          subst hrr
          refine ⟨_, dget_dset_self res "energy" _, rfl, rfl, fun heff hexp => ?_⟩
          have hge : 0 ≤ expGet e.experience "gathering" := expGet_nonneg _ hexp _
          have h1 : (0 : ℚ) ≤ 1 + expGet e.experience "gathering" * (1 / 10) := by
            linarith
          dsimp only
          nlinarith [mul_nonneg heff h1]
        · exact ⟨r, by simp [he, dget_dset_ne _ _ _ _ hk, h], rfl, rfl,
            fun _ _ => le_refl _⟩
  · simp only [if_neg ht]
    exact ⟨r, h, rfl, rfl, fun _ _ => le_refl _⟩

theorem process_entities_res (es : List (String × Entity))
    (res : List (String × Resource)) (rng : ℕ → ℚ) (i : ℕ) (k : String)
    (r : Resource) (h : dget res k = some r) :
    ∃ r₂, dget (process_entities res es rng i).1 k = some r₂ ∧
      r₂.name = r.name ∧ r₂.production_rate = r.production_rate ∧
      ((∀ p ∈ es, 0 ≤ p.2.traits.efficiency ∧ ∀ q ∈ p.2.experience, 0 ≤ q.2) →
        r.amount ≤ r₂.amount) := by
  induction es generalizing res i r with
  | nil => exact ⟨r, h, rfl, rfl, fun _ => le_refl _⟩
  | cons p rest ih =>
    obtain ⟨k₀, e₀⟩ := p
    obtain ⟨r₁, hr₁, hn₁, hp₁, ha₁⟩ := process_entity_action_res res e₀ rng i k r h
    obtain ⟨r₂, hr₂, hn₂, hp₂, ha₂⟩ :=
      ih (process_entity_action res e₀ rng i).1 (process_entity_action res e₀ rng i).2.2.2 r₁ hr₁
    refine ⟨r₂, ?_, by rw [hn₂, hn₁], by rw [hp₂, hp₁], ?_⟩
    · simpa [process_entities] using hr₂
    · intro hw
      have h₁ := ha₁ (hw (k₀, e₀) (by simp)).1 (hw (k₀, e₀) (by simp)).2
      have h₂ := ha₂ (fun q hq => hw q (by simp [hq]))
      exact le_trans h₁ h₂

theorem process_entity_action_exp (res : List (String × Resource)) (e : Entity)
    (rng : ℕ → ℚ) (i : ℕ) (hlr : 0 ≤ e.traits.learning_rate) (t : String) :
    expGet e.experience t ≤
      expGet (process_entity_action res e rng i).2.1.experience t := by
  unfold process_entity_action
  by_cases ht : e.current_task = some "gathering"
  · simp only [if_pos ht]
    by_cases hr : rng i < 1 / 20 <;>
      [simp only [if_pos hr]; simp only [if_neg hr]] <;>
    · by_cases hk : t = "gathering"
      · subst hk
        rw [expGet_dset_self]
        linarith
      · rw [expGet_dset_ne _ _ _ _ hk]
  · simp [if_neg ht]

theorem process_entities_ent (es : List (String × Entity))
    (res : List (String × Resource)) (rng : ℕ → ℚ) (i : ℕ) (k : String)
    (e : Entity) (h : dget es k = some e)
    (hw : ∀ p ∈ es, 0 ≤ p.2.traits.learning_rate) :
    ∃ e₂, dget (process_entities res es rng i).2.1 k = some e₂ ∧
      ∀ t, expGet e.experience t ≤ expGet e₂.experience t := by
  induction es generalizing res i with
  | nil => exact absurd h (by simp [dget])
  | cons p rest ih =>
    obtain ⟨k₀, e₀⟩ := p
    by_cases hk : k₀ = k
    · subst hk
      have he : e₀ = e := by simpa [dget] using h
      subst he
      refine ⟨(process_entity_action res e₀ rng i).2.1, ?_, ?_⟩
      · simp [process_entities, dget]
      · exact process_entity_action_exp res e₀ rng i (hw (k₀, e₀) (by simp))
    · have h' : dget rest k = some e := by simpa [dget, hk] using h
      obtain ⟨e₂, he₂, hm⟩ :=
        ih (process_entity_action res e₀ rng i).1 (process_entity_action res e₀ rng i).2.2.2 h'
          (fun q hq => hw q (by simp [hq]))
      exact ⟨e₂, by simpa [process_entities, dget, hk] using he₂, hm⟩

theorem process_entity_action_res_other (res : List (String × Resource))
    (e : Entity) (rng : ℕ → ℚ) (i : ℕ) (k : String) (hk : k ≠ "energy") :
    dget (process_entity_action res e rng i).1 k = dget res k := by
  unfold process_entity_action
  by_cases ht : e.current_task = some "gathering"
  · simp only [if_pos ht]
    by_cases hr : rng i < 1 / 20 <;>
      [simp only [if_pos hr]; simp only [if_neg hr]] <;>
    · cases he : dget res "energy" with
      | none => rfl
      | some r₀ => exact dget_dset_ne _ _ _ _ hk
  · simp [if_neg ht]

theorem process_entities_res_other (es : List (String × Entity))
    (res : List (String × Resource)) (rng : ℕ → ℚ) (i : ℕ) (k : String)
    (hk : k ≠ "energy") :
    dget (process_entities res es rng i).1 k = dget res k := by
  induction es generalizing res i with
  | nil => rfl
  | cons p rest ih =>
    obtain ⟨k₀, e₀⟩ := p
    simp only [process_entities]
    rw [ih (process_entity_action res e₀ rng i).1 (process_entity_action res e₀ rng i).2.2.2,
      process_entity_action_res_other res e₀ rng i k hk]

theorem process_entity_action_event_type (res : List (String × Resource))
    (e : Entity) (rng : ℕ → ℚ) (i : ℕ) (ev : Event)
    (h : (process_entity_action res e rng i).2.2.1 = some ev) :
    ev.type = "discovery" := by
  unfold process_entity_action at h
  by_cases ht : e.current_task = some "gathering"
  · simp only [if_pos ht] at h
    by_cases hr : rng i < 1 / 20
    · simp only [if_pos hr] at h
      have := Option.some.inj h
      rw [← this]
    · simp only [if_neg hr] at h
      cases h
  · simp only [if_neg ht] at h
    cases h

theorem process_entities_events_type (es : List (String × Entity))
    (res : List (String × Resource)) (rng : ℕ → ℚ) (i : ℕ) :
    ∀ ev ∈ (process_entities res es rng i).2.2.1, ev.type = "discovery" := by
  induction es generalizing res i with
  | nil => simp [process_entities]
  | cons p rest ih =>
    obtain ⟨k₀, e₀⟩ := p
    intro ev hev
    simp only [process_entities] at hev
    cases hs : (process_entity_action res e₀ rng i).2.2.1 with
    | some ev₀ =>
      rw [hs] at hev
      simp only [] at hev
      rcases List.mem_cons.1 hev with h | h
      · subst h
        exact process_entity_action_event_type res e₀ rng i ev hs
      · exact ih _ _ ev h
    | none =>
      rw [hs] at hev
      simp only [] at hev
      exact ih _ _ ev hev

theorem update_production_rates_amount (s : GameState) (k : String) :
    (dget (update_production_rates s).resources k).map Resource.amount =
      (dget s.resources k).map Resource.amount := by
  by_cases hk : k = "energy"
  · subst hk
    rw [update_production_rates_dget_energy]
    cases dget s.resources "energy" <;> rfl
  · rw [update_production_rates_dget_other s k hk]

/-! ### Claim theorems -/

/-- C1: counterexample.  On the spec scenario (energy 10, three gatherers
with efficiency 1, learning rate 0.1, no successful discovery roll), one
tick leaves energy at exactly 16.03, not the 16.0 the claim states: the
experience gained in the yield step (0.1 per gatherer) is already included
when the production rate is recomputed, so the rate is 3.03, not 3.0. -/
theorem c1_counterexample :
    (dget (tick scenarioState 10 rngHigh).state.resources "energy").map
      Resource.amount = some (1603 / 100) ∧ (1603 / 100 : ℚ) ≠ 16 := by
  constructor
  · norm_num [tick, process_entities, process_entity_action,
      update_production_rates, energy_rate_of, apply_production, dget, dset,
      expGet, scenarioState, scenarioGatherer, scenarioTraits, rngHigh]
  · norm_num

/-- C1 (amended): on the scenario, the yield step raises energy from 10.0
to 13.0 and sets each gatherer's gathering experience to 0.1; the rate is
then recomputed from the already-updated experience as
`3 * 1.0 * (1 + 0.1*0.1) = 3.03`, the rate step adds a further 3.03, and
the final energy amount is exactly 16.03; no event is emitted and the tick
counter becomes 1. -/
theorem c1_amended :
    (dget (process_entities scenarioState.resources scenarioState.entities
        rngHigh 0).1 "energy").map Resource.amount = some 13 ∧
    (dget (tick scenarioState 10 rngHigh).state.resources "energy").map
      Resource.amount = some (1603 / 100) ∧
    (dget (tick scenarioState 10 rngHigh).state.resources "energy").map
      Resource.production_rate = some (303 / 100) ∧
    (dget (tick scenarioState 10 rngHigh).state.entities "e0").map
      (fun e => expGet e.experience "gathering") = some (1 / 10) ∧
    (dget (tick scenarioState 10 rngHigh).state.entities "e1").map
      (fun e => expGet e.experience "gathering") = some (1 / 10) ∧
    (dget (tick scenarioState 10 rngHigh).state.entities "e2").map
      (fun e => expGet e.experience "gathering") = some (1 / 10) ∧
    (tick scenarioState 10 rngHigh).state.tick = 1 ∧
    (tick scenarioState 10 rngHigh).events = [] := by
  refine ⟨?_, ?_, ?_, ?_, ?_, ?_, ?_, ?_⟩ <;>
    norm_num [tick, process_entities, process_entity_action,
      update_production_rates, energy_rate_of, apply_production, dget, dset,
      expGet, scenarioState, scenarioGatherer, scenarioTraits, rngHigh,
      show "e0" ≠ "e1" by decide, show "e0" ≠ "e2" by decide,
      show "e1" ≠ "e2" by decide]

/-- C7: counterexample.  The tick step itself performs the auto-save: from
a state at tick 9 (default interval 10), `GameLogic.tick` directly invokes
`self.save_game()` — the persistence call happens inside the tick body,
contradicting the claim that the tick step never performs a save. -/
theorem c7_counterexample :
    (tick { scenarioState with tick := 9 } 10 rngHigh).saved = true := by
  rw [tick_saved_iff]
  rfl

/-- C7 (amended): one tick invocation performs the persistence save itself
if and only if the incremented tick counter is a multiple of the auto-save
interval; the system event is emitted on exactly the same ticks, so the
save is done by the tick step, not left to the outer loop. -/
theorem c7_amended (s : GameState) (interval : ℕ) (rng : ℕ → ℚ) :
    (tick s interval rng).saved = true ↔ (s.tick + 1) % interval = 0 :=
  tick_saved_iff s interval rng

/-- C8: on the initial three-gatherer state the tick step consumes one
draw of the (process-global) random stream per gathering entity: a stream
of draws below 0.05 yields three discovery events, a stream above 0.05
yields none, so the resulting event list depends on the global stream
state. -/
theorem c8_global_stream_dependence :
    (tick scenarioState 10 rngLow).events.length = 3 ∧
    (tick scenarioState 10 rngHigh).events.length = 0 := by
  constructor <;>
    norm_num [tick, process_entities, process_entity_action,
      update_production_rates, energy_rate_of, apply_production, dget, dset,
      expGet, scenarioState, scenarioGatherer, scenarioTraits, rngHigh, rngLow]

/-- C9: counterexample.  An entity gathering while no `"energy"` resource
exists changes no resource, but its own gathering experience still rises
from 0 to its learning rate 0.1 — the claim that such an entity's
experience is unchanged is false. -/
theorem c9_counterexample :
    (tick noEnergyState 10 rngHigh).state.resources = [] ∧
    (dget (tick noEnergyState 10 rngHigh).state.entities "e0").map
      (fun e => expGet e.experience "gathering") = some (1 / 10) ∧
    (1 / 10 : ℚ) ≠ 0 := by
  refine ⟨?_, ?_, by norm_num⟩ <;>
    norm_num [tick, process_entities, process_entity_action,
      update_production_rates, energy_rate_of, apply_production, dget, dset,
      expGet, noEnergyState, scenarioGatherer, scenarioTraits, rngHigh]

/-- C9 (amended): the per-entity step is total and absorbs the malformed
reference without touching any resource: a gathering entity with no
`"energy"` resource present leaves the resource dict unchanged and raises
no fault, but its gathering experience still increases by its learning
rate (other tasks' experience is untouched). -/
theorem c9_amended (res : List (String × Resource)) (e : Entity)
    (rng : ℕ → ℚ) (i : ℕ) (henergy : dget res "energy" = none)
    (ht : e.current_task = some "gathering") :
    (process_entity_action res e rng i).1 = res ∧
    expGet (process_entity_action res e rng i).2.1.experience "gathering" =
      expGet e.experience "gathering" + e.traits.learning_rate ∧
    ∀ t, t ≠ "gathering" →
      expGet (process_entity_action res e rng i).2.1.experience t =
        expGet e.experience t := by
  unfold process_entity_action
  simp only [if_pos ht]
  by_cases hr : rng i < 1 / 20 <;>
    [simp only [if_pos hr]; simp only [if_neg hr]] <;>
  · refine ⟨by simp [henergy], ?_, ?_⟩
    · rw [expGet_dset_self]
    · intro t htg
      rw [expGet_dset_ne _ _ _ _ htg]

/-- C9 witness: the amended statement evaluated on a concrete gathering
entity facing an empty resource dict. -/
theorem c9_witness :
    (process_entity_action [] (scenarioGatherer "e0") rngHigh 0).1 = [] ∧
    expGet (process_entity_action [] (scenarioGatherer "e0") rngHigh
        0).2.1.experience "gathering" =
      expGet (scenarioGatherer "e0").experience "gathering" +
        (scenarioGatherer "e0").traits.learning_rate :=
  ⟨(c9_amended [] (scenarioGatherer "e0") rngHigh 0 rfl rfl).1,
   (c9_amended [] (scenarioGatherer "e0") rngHigh 0 rfl rfl).2.1⟩

/-- C10: one tick emits the `system` auto-save event exactly when the
incremented tick counter is divisible by the (positive) auto-save
interval. -/
theorem c10_auto_save_iff (s : GameState) (interval : ℕ) (rng : ℕ → ℚ)
    (_hpos : 0 < interval) :
    ((⟨"system", none, "Game auto-saved"⟩ : Event) ∈
        (tick s interval rng).events) ↔
      (s.tick + 1) % interval = 0 := by
  rw [tick_events_eq]
  constructor
  · intro hmem
    rcases List.mem_append.1 hmem with h | h
    · have htype := process_entities_events_type s.entities s.resources rng 0 _ h
      exact absurd htype (by decide)
    · by_cases hc : (s.tick + 1) % interval = 0
      · exact hc
      · rw [if_neg hc] at h
        cases h
  · intro hc
    rw [if_pos hc]
    exact List.mem_append.2 (Or.inr (by simp))

/-- C10 witness: with the default interval 10 the event fires at tick 10
(and the hypothesis `0 < 10` holds). -/
theorem c10_witness :
    (0 < 10) ∧
    (((⟨"system", none, "Game auto-saved"⟩ : Event) ∈
        (tick { scenarioState with tick := 9 } 10 rngHigh).events) ↔
      (9 + 1) % 10 = 0) :=
  ⟨by decide,
   by simpa using
     c10_auto_save_iff { scenarioState with tick := 9 } 10 rngHigh (by decide)⟩

theorem apply_production_rate_preserved (r : Resource) :
    (if r.production_rate > 0 then
      { r with amount := r.amount + r.production_rate } else r).production_rate =
      r.production_rate := by
  split <;> rfl

/-- C2: one tick increments the tick counter by exactly 1 and, under
non-negative efficiencies, learning rates, amounts and experience, never
decreases any resource amount nor any entity's per-task experience. -/
theorem c2_tick_monotone (s : GameState) (interval : ℕ) (rng : ℕ → ℚ)
    (hent : ∀ p ∈ s.entities, 0 ≤ p.2.traits.efficiency ∧
      0 ≤ p.2.traits.learning_rate ∧ ∀ q ∈ p.2.experience, 0 ≤ q.2)
    (_hres : ∀ p ∈ s.resources, 0 ≤ p.2.amount) :
    (tick s interval rng).state.tick = s.tick + 1 ∧
    (∀ k r, dget s.resources k = some r →
      ∃ r₂, dget (tick s interval rng).state.resources k = some r₂ ∧
        r.amount ≤ r₂.amount) ∧
    (∀ k e, dget s.entities k = some e →
      ∃ e₂, dget (tick s interval rng).state.entities k = some e₂ ∧
        ∀ t, expGet e.experience t ≤ expGet e₂.experience t) := by
  refine ⟨tick_state_tick s interval rng, ?_, ?_⟩
  · intro k r hr
    obtain ⟨r₁, hr₁, _, _, ha₁⟩ :=
      process_entities_res s.entities s.resources rng 0 k r hr
    have hstage1 : r.amount ≤ r₁.amount :=
      ha₁ (fun p hp => ⟨(hent p hp).1, (hent p hp).2.2⟩)
    have h2 := update_production_rates_amount { s with
      tick := s.tick + 1,
      resources := (process_entities s.resources s.entities rng 0).1,
      entities := (process_entities s.resources s.entities rng 0).2.1 } k
    dsimp only at h2
    rw [hr₁] at h2
    obtain ⟨r₂, hr₂, hamt⟩ := Option.map_eq_some'.1 h2
    rw [tick_state_resources, apply_production_dget, hr₂, Option.map_some']
    refine ⟨_, rfl, ?_⟩
    by_cases hpos : r₂.production_rate > 0
    · rw [if_pos hpos]
      show r.amount ≤ r₂.amount + r₂.production_rate
      linarith
    · rw [if_neg hpos]
      linarith
  · intro k e he
    obtain ⟨e₂, he₂, hm⟩ := process_entities_ent s.entities s.resources rng 0 k e
      he (fun p hp => (hent p hp).2.1)
    rw [tick_state_entities]
    exact ⟨e₂, he₂, hm⟩

/-- C2 witness: the monotonicity theorem applied to the scenario state. -/
theorem c2_witness :
    (tick scenarioState 10 rngHigh).state.tick = scenarioState.tick + 1 ∧
    (∃ r₂, dget (tick scenarioState 10 rngHigh).state.resources "energy" =
      some r₂ ∧ (10 : ℚ) ≤ r₂.amount) := by
  have h := c2_tick_monotone scenarioState 10 rngHigh
    (by norm_num [scenarioState, scenarioGatherer, scenarioTraits])
    (by norm_num [scenarioState])
  refine ⟨h.1, ?_⟩
  obtain ⟨r₂, hr₂, hle⟩ :=
    h.2.1 "energy" ⟨"energy", 10, 0⟩ (by simp [scenarioState, dget])
  exact ⟨r₂, hr₂, by simpa using hle⟩

/-- C4: counterexample.  A `philosopher`-typed entity assigned to
`"gathering"` feeds energy in the yield step, but `_update_production_rates`
counts only `gatherer`-typed entities: after one tick energy's
production_rate is 0 while the claim's sum over all entities assigned to a
feeding task is 1. -/
theorem c4_counterexample :
    (dget (tick philosopherState 10 rngHigh).state.resources "energy").map
      Resource.production_rate = some 0 ∧
    claimed_energy_rate (tick philosopherState 10 rngHigh).state.entities = 1 ∧
    (0 : ℚ) ≠ 1 := by
  refine ⟨?_, ?_, by norm_num⟩ <;>
    norm_num [tick, process_entities, process_entity_action,
      update_production_rates, energy_rate_of, apply_production,
      claimed_energy_rate, dget, dset, expGet, philosopherState, rngHigh,
      List.filter_cons, List.filter_nil,
      show (("philosopher" : String) == "gatherer") = false by decide,
      show ((some "gathering" : Option String) == some "gathering") = true by decide]

/-- C4 (amended): after every tick, `energy`'s production_rate (when the
resource exists) equals the sum over entities with entity_type "gatherer"
and current_task "gathering" of `efficiency * (1 + experience * 0.1)`,
computed from the post-tick experience and independent of the previously
stored rate; every other resource keeps its previous production_rate
unchanged. -/
theorem c4_amended (s : GameState) (interval : ℕ) (rng : ℕ → ℚ) :
    (∀ r, dget s.resources "energy" = some r →
      (dget (tick s interval rng).state.resources "energy").map
        Resource.production_rate =
        some (energy_rate_of (tick s interval rng).state.entities)) ∧
    (∀ k r, k ≠ "energy" → dget s.resources k = some r →
      (dget (tick s interval rng).state.resources k).map
        Resource.production_rate = some r.production_rate) := by
  constructor
  · intro r hr
    obtain ⟨r₁, hr₁, _, _, _⟩ :=
      process_entities_res s.entities s.resources rng 0 "energy" r hr
    rw [tick_state_resources, apply_production_dget]
    have hupd := update_production_rates_dget_energy { s with
      tick := s.tick + 1,
      resources := (process_entities s.resources s.entities rng 0).1,
      entities := (process_entities s.resources s.entities rng 0).2.1 }
    dsimp only at hupd
    rw [hr₁, Option.map_some'] at hupd
    rw [hupd, Option.map_some', Option.map_some', apply_production_rate_preserved,
      tick_state_entities]
  · intro k r hk hr
    rw [tick_state_resources, apply_production_dget]
    have hother := update_production_rates_dget_other { s with
      tick := s.tick + 1,
      resources := (process_entities s.resources s.entities rng 0).1,
      entities := (process_entities s.resources s.entities rng 0).2.1 } k hk
    dsimp only at hother
    rw [process_entities_res_other s.entities s.resources rng 0 k hk, hr] at hother
    rw [hother, Option.map_some', Option.map_some', apply_production_rate_preserved]

/-- C4 witness: the amended statement evaluated with `energy` present. -/
theorem c4_witness :
    (dget (tick boostState 10 rngHigh).state.resources "energy").map
      Resource.production_rate =
      some (energy_rate_of (tick boostState 10 rngHigh).state.entities) :=
  (c4_amended boostState 10 rngHigh).1 ⟨"energy", 10, 0⟩
    (by simp [boostState, dget])

/-- C3: counterexample.  `apply_player_boost` on a known, gathering entity
with no `"energy"` resource present reports success yet changes nothing:
no resource's amount is increased, contradicting the claim that a known
producing entity always increases exactly one resource's amount. -/
theorem c3_counterexample :
    apply_player_boost noEnergyState "e0" 2 =
      (noEnergyState, .success "Zara" 2) := by
  norm_num [apply_player_boost, noEnergyState, scenarioGatherer,
    scenarioTraits, dget]

/-- C3 (amended): `apply_player_boost` on an unknown id or a non-gathering
entity returns failure and leaves the state unchanged; on a known gathering
entity it reports success with amount `multiplier * efficiency`, and, when
the `"energy"` resource exists, adds exactly that amount to it changing
nothing else — but when `"energy"` is absent it still reports success while
changing nothing. -/
theorem c3_amended (s : GameState) (eid : String) (m : ℚ) :
    (dget s.entities eid = none → apply_player_boost s eid m = (s, .failure)) ∧
    (∀ e, dget s.entities eid = some e → e.current_task ≠ some "gathering" →
      apply_player_boost s eid m = (s, .failure)) ∧
    (∀ e, dget s.entities eid = some e → e.current_task = some "gathering" →
      (apply_player_boost s eid m).2 = .success e.name (m * e.traits.efficiency) ∧
      (dget s.resources "energy" = none → (apply_player_boost s eid m).1 = s) ∧
      (∀ r, dget s.resources "energy" = some r → (apply_player_boost s eid m).1 =
        { s with resources := dset s.resources "energy" { r with amount := r.amount + m * e.traits.efficiency } })) := by
  refine ⟨?_, ?_, ?_⟩
  · intro hn
    unfold apply_player_boost
    rw [hn]
  · intro e he hne
    unfold apply_player_boost
    rw [he]
    simp [if_neg hne]
  · intro e he htask
    unfold apply_player_boost
    rw [he]
    simp only [if_pos htask]
    refine ⟨?_, ?_, ?_⟩
    · cases hres : dget s.resources "energy" <;> simp [hres]
    · intro hn
      simp [hn]
    · intro r hr
      simp [hr]

/-- C3 witness: the amended statement on a concrete known gathering entity
with `energy` present. -/
theorem c3_witness :
    (apply_player_boost boostState "e0" 2).2 =
      .success "Zara" (2 * (scenarioGatherer "e0").traits.efficiency) :=
  ((c3_amended boostState "e0" 2).2.2 (scenarioGatherer "e0")
    (by simp [boostState, dget]) rfl).1

/-- C6: counterexample.  The hand-off channel is an unbounded FIFO
`queue.Queue`, not a single-slot latest-wins cell: after the input thread
publishes `s` (save) and then `q` (quit), the loop's next drain observes
`save` — the FIRST command — and `quit` is still retained in the queue, so
two unread commands coexisted and the older one was not dropped. -/
theorem c6_counterexample :
    (get_input ⟨input_handler_step (input_handler_step [] 115) 113, 0, []⟩).1 =
      some "save" ∧
    (get_input
        ⟨input_handler_step (input_handler_step [] 115) 113, 0, []⟩).2.input_queue =
      [113] ∧
    (some "save" : Option String) ≠ some "quit" := by
  refine ⟨?_, ?_, by decide⟩ <;> decide

/-- C6 (amended): the channel is an unbounded FIFO queue: when two keys are
published before any drain, the next `get_input` call observes the command
of the FIRST key (exactly what it would observe had only that key been
published) and the second key remains queued; nothing is dropped and more
than one unread command can be retained. -/
theorem c6_amended (d : DisplayState) (k₁ k₂ : ℤ) (hq : d.input_queue = [])
    (h₁ : k₁ ≠ -1) (h₂ : k₂ ≠ -1) :
    (get_input { d with input_queue := input_handler_step (input_handler_step d.input_queue k₁) k₂ }).1 =
      (get_input { d with input_queue := [k₁] }).1 ∧
    (get_input { d with input_queue := input_handler_step (input_handler_step d.input_queue k₁) k₂ }).2.input_queue =
      [k₂] := by
  rw [hq]
  rw [show input_handler_step (input_handler_step ([] : List ℤ) k₁) k₂ = [k₁, k₂] by
    simp [input_handler_step, h₁, h₂]]
  simp only [get_input]
  constructor
  · split_ifs <;>
      first
        | rfl
        | (cases d.selectable_items.get? d.current_selection.toNat <;> rfl)
  · split_ifs <;>
      first
        | rfl
        | (cases d.selectable_items.get? d.current_selection.toNat <;> rfl)

/-- C6 witness: the amended statement on the concrete keys `s` then `q`. -/
theorem c6_witness :
    (get_input ⟨input_handler_step (input_handler_step [] 115) 113, 5, []⟩).1 =
      (get_input ⟨[115], 5, []⟩).1 ∧
    (get_input
        ⟨input_handler_step (input_handler_step [] 115) 113, 5, []⟩).2.input_queue =
      [113] :=
  c6_amended ⟨[], 5, []⟩ 115 113 rfl (by decide) (by decide)

/-! ### Persistence lemmas -/

theorem filter_purge {α : Type} (p : α → Bool) (l : List α) :
    (purge p l).filter p = [] := by
  rw [List.filter_eq_nil_iff]
  intro a ha
  rw [purge] at ha
  have hfalse : p a = false := by simpa using (List.mem_filter.1 ha).2
  simp [hfalse]

theorem filter_purge_append {α : Type} (p : α → Bool) (old new : List α)
    (h : ∀ a ∈ new, p a = true) :
    (purge p old ++ new).filter p = new := by
  rw [List.filter_append, filter_purge, List.nil_append, List.filter_eq_self.2 h]

theorem find?_purge_append {α : Type} (p : α → Bool) (old new : List α) :
    (purge p old ++ new).find? p = new.find? p := by
  induction old with
  | nil => rfl
  | cons a rest ih =>
    by_cases h : p a = true
    · have hstep : purge p (a :: rest) = purge p rest := by
        simp [purge, List.filter_cons, h]
      rw [hstep, ih]
    · have hstep : purge p (a :: rest) = a :: purge p rest := by
        simp [purge, List.filter_cons, h]
      rw [hstep, List.cons_append, List.find?_cons_of_neg _ h, ih]

theorem dset_of_not_mem {α : Type} (d : List (String × α)) (k : String) (v : α)
    (h : k ∉ d.map Prod.fst) : dset d k v = d ++ [(k, v)] := by
  induction d with
  | nil => rfl
  | cons p rest ih =>
    obtain ⟨k₀, v₀⟩ := p
    have hne : k₀ ≠ k := fun hh => h (by simp [hh])
    simp [dset, hne, ih (fun hm => h (by simp [hm]))]

theorem foldl_dset_append {α : Type} (l : List (String × α)) :
    ∀ acc : List (String × α), (l.map Prod.fst).Nodup →
      (∀ k ∈ l.map Prod.fst, k ∉ acc.map Prod.fst) →
      l.foldl (fun a p => dset a p.1 p.2) acc = acc ++ l := by
  induction l with
  | nil => intro acc _ _; simp
  | cons p rest ih =>
    intro acc hnd hdisj
    obtain ⟨k₀, v₀⟩ := p
    rw [List.map_cons, List.nodup_cons] at hnd
    have hnd' := hnd
    rw [List.foldl_cons]
    rw [show dset acc k₀ v₀ = acc ++ [(k₀, v₀)] from
      dset_of_not_mem acc k₀ v₀ (hdisj k₀ (by simp))]
    rw [ih (acc ++ [(k₀, v₀)]) hnd'.2 ?hdisj]
    · simp
    case hdisj =>
      intro k hk
      simp only [List.map_append, List.mem_append]
      rintro (hin | hin)
      · exact hdisj k (by simp [hk]) hin
      · have hkk : k = k₀ := by simpa using hin
        exact hnd'.1 (hkk ▸ hk)

theorem foldl_dset_nil {α : Type} (l : List (String × α))
    (hnd : (l.map Prod.fst).Nodup) :
    l.foldl (fun a p => dset a p.1 p.2) [] = l := by
  simpa using foldl_dset_append l [] hnd (by simp)

theorem dget_of_mem_nodup {α : Type} (d : List (String × α)) (p : String × α)
    (hp : p ∈ d) (hnd : (d.map Prod.fst).Nodup) : dget d p.1 = some p.2 := by
  induction d with
  | nil => cases hp
  | cons q rest ih =>
    obtain ⟨k₀, v₀⟩ := q
    rw [List.map_cons, List.nodup_cons] at hnd
    rcases List.mem_cons.1 hp with rfl | hmem
    · simp [dget]
    · have hne : k₀ ≠ p.1 := by
        intro hcontra
        exact hnd.1 (by rw [hcontra]; exact List.mem_map.2 ⟨p, hmem, rfl⟩)
      simp [dget, hne, ih hmem hnd.2]

theorem save_game_rows_find (db : Database) (s : GameState) :
    (save_game_state db s).game_state_rows.find? (fun g => g.1 == 1) =
      some (1, s.tick, s.prestige_tokens, s.player_boost) := by
  unfold save_game_state
  dsimp only
  rw [find?_purge_append]
  rfl

theorem save_resource_rows_filter (db : Database) (s : GameState) :
    (save_game_state db s).resource_rows.filter (fun r => r.game_id == 1) =
      s.resources.map (fun p =>
        ⟨1, p.2.name, p.2.amount, p.2.production_rate⟩) := by
  unfold save_game_state
  dsimp only
  exact filter_purge_append _ _ _ (by
    intro a ha
    obtain ⟨p, hp, rfl⟩ := List.mem_map.1 ha
    rfl)

theorem save_entity_rows_filter (db : Database) (s : GameState) :
    (save_game_state db s).entity_rows.filter (fun r => r.game_id == 1) =
      s.entities.map (fun p =>
        ⟨1, p.2.id, p.2.name, p.2.entity_type, p.2.current_task,
          p.2.traits.efficiency, p.2.traits.learning_rate,
          p.2.traits.cooperation, p.2.traits.stamina⟩) := by
  unfold save_game_state
  dsimp only
  exact filter_purge_append _ _ _ (by
    intro a ha
    obtain ⟨p, hp, rfl⟩ := List.mem_map.1 ha
    rfl)

theorem save_tech_rows_filter (db : Database) (s : GameState) :
    (save_game_state db s).technology_rows.filter (fun r => r.game_id == 1) =
      s.technologies.map (fun t => ⟨1, t, s.tick⟩) := by
  unfold save_game_state
  dsimp only
  exact filter_purge_append _ _ _ (by
    intro a ha
    obtain ⟨t, ht, rfl⟩ := List.mem_map.1 ha
    rfl)

theorem filter_flatMap_exp_nil (es : List (String × Entity)) (eid : String)
    (hen : ∀ q ∈ es, q.2.id = q.1) (hnotin : eid ∉ es.map Prod.fst) :
    (es.flatMap (fun q => q.2.experience.map
        (fun t => (⟨1, q.2.id, t.1, t.2⟩ : ExperienceRow)))).filter
      (fun er => er.game_id == 1 && er.entity_id == eid) = [] := by
  rw [List.filter_eq_nil_iff]
  intro a ha
  obtain ⟨q, hq, haq⟩ := List.mem_flatMap.1 ha
  obtain ⟨t, ht, rfl⟩ := List.mem_map.1 haq
  have hq1 : q.2.id = q.1 := hen q hq
  have hne : q.1 ≠ eid := by
    intro hcontra
    exact hnotin (by rw [← hcontra]; exact List.mem_map.2 ⟨q, hq, rfl⟩)
  simp [hq1, hne]

theorem filter_flatMap_exp (es : List (String × Entity)) (eid : String)
    (ent : Entity) (hen : ∀ q ∈ es, q.2.id = q.1)
    (hend : (es.map Prod.fst).Nodup) (hget : dget es eid = some ent) :
    (es.flatMap (fun q => q.2.experience.map
        (fun t => (⟨1, q.2.id, t.1, t.2⟩ : ExperienceRow)))).filter
      (fun er => er.game_id == 1 && er.entity_id == eid) =
    ent.experience.map (fun t => ⟨1, eid, t.1, t.2⟩) := by
  induction es with
  | nil => exact absurd hget (by simp [dget])
  | cons q₀ rest ih =>
    obtain ⟨k₀, e₀⟩ := q₀
    rw [List.flatMap_cons, List.filter_append]
    rw [List.map_cons, List.nodup_cons] at hend
    have hid : e₀.id = k₀ := hen (k₀, e₀) (by simp)
    by_cases hk : k₀ = eid
    · have hent : ent = e₀ := by
        simp only [dget, if_pos hk] at hget
        exact (Option.some.inj hget).symm
      have hhead : (e₀.experience.map
          (fun t => (⟨1, e₀.id, t.1, t.2⟩ : ExperienceRow))).filter
          (fun er => er.game_id == 1 && er.entity_id == eid) =
          ent.experience.map (fun t => ⟨1, eid, t.1, t.2⟩) := by
        rw [hent, hid, hk]
        apply List.filter_eq_self.2
        intro a ha
        obtain ⟨t, ht, rfl⟩ := List.mem_map.1 ha
        simp
      have htail := filter_flatMap_exp_nil rest eid
        (fun q hq => hen q (by simp [hq])) (by rw [← hk]; exact hend.1)
      rw [hhead, htail, List.append_nil]
    · have hget' : dget rest eid = some ent := by
        simpa only [dget, if_neg hk] using hget
      have hhead : (e₀.experience.map
          (fun t => (⟨1, e₀.id, t.1, t.2⟩ : ExperienceRow))).filter
          (fun er => er.game_id == 1 && er.entity_id == eid) = [] := by
        rw [List.filter_eq_nil_iff]
        intro a ha
        obtain ⟨t, ht, rfl⟩ := List.mem_map.1 ha
        simp [hid, hk]
      rw [hhead, List.nil_append]
      exact ih (fun q hq => hen q (by simp [hq])) hend.2 hget'

theorem filter_exp_purge_append (old new : List ExperienceRow) (eid : String) :
    (purge (fun r => r.game_id == 1) old ++ new).filter
      (fun er => er.game_id == 1 && er.entity_id == eid) =
    new.filter (fun er => er.game_id == 1 && er.entity_id == eid) := by
  rw [List.filter_append]
  have hnil : (purge (fun r => r.game_id == 1) old).filter
      (fun er => er.game_id == 1 && er.entity_id == eid) = [] := by
    rw [List.filter_eq_nil_iff]
    intro a ha
    rw [purge] at ha
    have hfalse : (a.game_id == 1) = false := by
      simpa using (List.mem_filter.1 ha).2
    simp [hfalse]
  rw [hnil, List.nil_append]

theorem load_experience_save (db : Database) (s : GameState) (eid : String)
    (ent : Entity) (hget : dget s.entities eid = some ent)
    (hen : ∀ q ∈ s.entities, q.2.id = q.1)
    (hend : (s.entities.map Prod.fst).Nodup)
    (hexp : (ent.experience.map Prod.fst).Nodup) :
    load_experience (save_game_state db s) 1 eid = ent.experience := by
  unfold load_experience
  rw [show (save_game_state db s).experience_rows =
      purge (fun r => r.game_id == 1) db.experience_rows ++
        s.entities.flatMap (fun p =>
          p.2.experience.map (fun q => ⟨1, p.2.id, q.1, q.2⟩)) from rfl]
  rw [filter_exp_purge_append, filter_flatMap_exp s.entities eid ent hen hend hget]
  rw [List.map_map]
  have hm : ent.experience.map
      ((fun er : ExperienceRow => (er.task_type, er.experience)) ∘
        (fun t : String × ℚ => (⟨1, eid, t.1, t.2⟩ : ExperienceRow))) =
      ent.experience := by
    rw [show ((fun er : ExperienceRow => (er.task_type, er.experience)) ∘
        (fun t : String × ℚ => (⟨1, eid, t.1, t.2⟩ : ExperienceRow))) =
        (fun t : String × ℚ => t) from rfl]
    exact List.map_id' ent.experience
  rw [hm]
  exact foldl_dset_nil ent.experience hexp

/-- C5: save followed by load reconstructs the state exactly, for every
well-keyed state (dict keys equal stored names/ids, no duplicate keys, no
duplicate technologies — the invariant every reachable state satisfies)
over any prior database contents. -/
theorem c5_round_trip (db : Database) (s : GameState) (hw : wellFormed s) :
    load_game_state (save_game_state db s) 1 = some s := by
  obtain ⟨hrn, hrnd, hen, hend, hexpnd, _htnd⟩ := hw
  have hres : (((save_game_state db s).resource_rows.filter
      (fun r => r.game_id == 1)).map
      (fun r => (r.name, Resource.mk r.name r.amount r.production_rate))).foldl
      (fun acc p => dset acc p.1 p.2) [] = s.resources := by
    rw [save_resource_rows_filter, List.map_map]
    have hm : s.resources.map
        ((fun r : ResourceRow => (r.name, Resource.mk r.name r.amount r.production_rate)) ∘
          (fun p : String × Resource =>
            (⟨1, p.2.name, p.2.amount, p.2.production_rate⟩ : ResourceRow))) =
        s.resources.map (fun p => p) := by
      apply List.map_congr_left
      intro p hp
      obtain ⟨k, v⟩ := p
      have hn := hrn (k, v) hp
      show (v.name, Resource.mk v.name v.amount v.production_rate) = (k, v)
      rw [show Resource.mk v.name v.amount v.production_rate = v from rfl, hn]
    rw [hm, List.map_id']
    exact foldl_dset_nil s.resources hrnd
  have hent : (((save_game_state db s).entity_rows.filter
      (fun r => r.game_id == 1)).map
      (fun row => (row.entity_id, Entity.mk row.entity_id row.name
        row.entity_type
        ⟨row.efficiency, row.learning_rate, row.cooperation, row.stamina⟩
        (load_experience (save_game_state db s) 1 row.entity_id)
        row.current_task))).foldl
      (fun acc p => dset acc p.1 p.2) [] = s.entities := by
    rw [save_entity_rows_filter, List.map_map]
    have hm : s.entities.map
        ((fun row : EntityRow => (row.entity_id, Entity.mk row.entity_id
          row.name row.entity_type
          ⟨row.efficiency, row.learning_rate, row.cooperation, row.stamina⟩
          (load_experience (save_game_state db s) 1 row.entity_id)
          row.current_task)) ∘
          (fun p : String × Entity =>
            (⟨1, p.2.id, p.2.name, p.2.entity_type, p.2.current_task,
              p.2.traits.efficiency, p.2.traits.learning_rate,
              p.2.traits.cooperation, p.2.traits.stamina⟩ : EntityRow))) =
        s.entities.map (fun p => p) := by
      apply List.map_congr_left
      intro p hp
      obtain ⟨k, v⟩ := p
      have hid := hen (k, v) hp
      have hget : dget s.entities v.id = some v := by
        rw [hid]
        exact dget_of_mem_nodup s.entities (k, v) hp hend
      have hload := load_experience_save db s v.id v hget hen hend
        (hexpnd (k, v) hp)
      show (v.id, Entity.mk v.id v.name v.entity_type
        ⟨v.traits.efficiency, v.traits.learning_rate, v.traits.cooperation,
          v.traits.stamina⟩
        (load_experience (save_game_state db s) 1 v.id) v.current_task) = (k, v)
      rw [hload]
      rw [show (⟨v.traits.efficiency, v.traits.learning_rate,
        v.traits.cooperation, v.traits.stamina⟩ : EntityTraits) = v.traits from rfl]
      rw [show Entity.mk v.id v.name v.entity_type v.traits v.experience
        v.current_task = v from rfl, hid]
    rw [hm, List.map_id']
    exact foldl_dset_nil s.entities hend
  have htech : ((save_game_state db s).technology_rows.filter
      (fun r => r.game_id == 1)).map (fun r => r.tech_name) =
      s.technologies := by
    rw [save_tech_rows_filter, List.map_map]
    exact List.map_id' s.technologies
  unfold load_game_state
  rw [save_game_rows_find]
  simp only []
  rw [hres, hent, htech]

/-- C5 witness: the round trip evaluated on a concrete well-formed state
over the empty database. -/
theorem c5_witness :
    wellFormed boostState ∧
    load_game_state (save_game_state emptyDb boostState) 1 = some boostState :=
  ⟨by decide, c5_round_trip emptyDb boostState (by decide)⟩

end IdleStuff
